import Mathlib

/-!
Verification of the response-normalization and endpoint logic of
`src/app.py` (Contract Extractor API).

The Python code is shallowly embedded: Python `dict`s become
insertion-ordered association lists, Python values stored in the
contract-details mapping (and values produced by `json.loads`) become the
inductive type `JVal`, exceptions become `Except`, and the remote model
call (`client.predict`) becomes an explicit `Except String ModelText`
argument, so that each handler is a total function of the gateway outcome.
-/

/-- Values produced by `json.loads` and stored in contract-details
mappings: Python `str`, `int`, `None`, `bool`, `list`, `dict`.
(JSON float values are not needed by any property considered here.) -/
inductive JVal where
  | str (s : String)
  | jint (n : Int)
  | jnull
  | jbool (b : Bool)
  | jarr (xs : List JVal)
  | jobj (fs : List (String × JVal))

/-- Python `isinstance(value, str)` (app.py line 110). -/
def JVal.isStr : JVal → Bool
  | .str _ => true
  | _ => false

/-- Python type name, as used in the `AttributeError` message raised by
`value.isdigit()` on a non-string (see app.py line 256). -/
def JVal.pyTypeName : JVal → String
  | .str _ => "str"
  | .jint _ => "int"
  | .jnull => "NoneType"
  | .jbool _ => "bool"
  | .jarr _ => "list"
  | .jobj _ => "dict"

/-- Python `dict` assignment `d[k] = v` on an insertion-ordered dict:
an existing key keeps its position and gets the new value, a new key is
appended at the end. -/
def dictInsert (d : List (String × JVal)) (k : String) (v : JVal) :
    List (String × JVal) :=
  match d with
  | [] => [(k, v)]
  | (k0, v0) :: rest =>
    if k0 = k then (k0, v) :: rest else (k0, v0) :: dictInsert rest k v

/-- Whitespace stripped by Python `str.strip()`. The embedding covers the
ASCII whitespace characters (space, tab, newline, carriage return,
vertical tab, form feed); Python also strips some further Unicode
whitespace, which no input considered here contains. -/
def isPySpace (c : Char) : Bool :=
  c = ' ' || c = '\t' || c = '\n' || c = '\r' ||
  c = Char.ofNat 11 || c = Char.ofNat 12

/-- List-level Python `str.strip()`. -/
def pyStripChars (l : List Char) : List Char :=
  ((l.dropWhile isPySpace).reverse.dropWhile isPySpace).reverse

/-- Python `str.strip()` (used at app.py lines 96-97 and 267-273). -/
def pyStrip (s : String) : String := ⟨pyStripChars s.data⟩

/-- ASCII decimal digit test. -/
def isAsciiDigit (c : Char) : Bool :=
  48 ≤ c.toNat && c.toNat ≤ 57

/-- Python `str.isdigit()` (app.py lines 256, 270): nonempty and all
digits. The embedding covers ASCII digits; Python additionally accepts
some other Unicode digit characters, which no input considered here
contains. -/
def pyIsDigit (s : String) : Bool :=
  !s.data.isEmpty && s.data.all isAsciiDigit

/-- Python `int(s)` on a string of ASCII decimal digits
(app.py lines 257, 271). -/
def pyParseDigits (s : String) : Nat :=
  s.data.foldl (fun n c => 10 * n + (c.toNat - 48)) 0

/-- Python `s.replace(Char.ofNat 34, empty)`: removing every double-quote
character, as in `remove_extra_quotes` (app.py lines 109, 111). -/
def stripQuotes (s : String) : String :=
  ⟨s.data.filter (fun c => c ≠ Char.ofNat 34)⟩

/-- Split a character list at its first `:`.  Returns the part before and
the part after, or `none` when no colon occurs. -/
def splitFirstColonAux : List Char → Option (List Char × List Char)
  | [] => Option.none
  | c :: rest =>
    if c = ':' then some ([], rest)
    else (splitFirstColonAux rest).map (fun p => (c :: p.1, p.2))

/-- Python `line.split(":", 1)` guarded by `":" in line`
(app.py lines 95-96 and 266-267): splits at the first colon only. -/
def splitFirstColon (line : String) : Option (String × String) :=
  match splitFirstColonAux line.data with
  | Option.none => Option.none
  | some (k, v) => some (⟨k⟩, ⟨v⟩)

/-- Python `":" in line`. -/
def hasColon (line : String) : Bool := line.data.contains ':'

/-- The line boundaries recognized by Python `str.splitlines()`:
LF, CR (with CRLF counting as one boundary), VT, FF, FS, GS, RS, NEL,
LINE SEPARATOR, PARAGRAPH SEPARATOR. -/
def isLineBoundary (c : Char) : Bool :=
  c = '\n' || c = '\r' || c = Char.ofNat 11 || c = Char.ofNat 12 ||
  c = Char.ofNat 28 || c = Char.ofNat 29 || c = Char.ofNat 30 ||
  c = Char.ofNat 133 || c = Char.ofNat 8232 || c = Char.ofNat 8233

/-- Worker for `str.splitlines()`: `acc` holds the current line reversed.
A CR immediately followed by an LF counts as a single boundary. -/
def splitlinesAux : List Char → List Char → List (List Char)
  | [], acc => if acc.isEmpty then [] else [acc.reverse]
  | '\r' :: '\n' :: rest, acc => acc.reverse :: splitlinesAux rest []
  | c :: rest, acc =>
    if isLineBoundary c then acc.reverse :: splitlinesAux rest []
    else splitlinesAux rest (c :: acc)

/-- Python `response.splitlines()` (app.py lines 93, 264). -/
def pySplitlines (s : String) : List String :=
  (splitlinesAux s.data []).map (fun l => (⟨l⟩ : String))

/-! ## The per-value coercions -/

/-- The `/chat` endpoint's coercion of a string value (app.py lines
254-259 apply it to the raw string from the JSON path, lines 268-273 to
the whitespace-stripped value from the line-heuristic path): the literal
text `null` becomes Python `None`, an all-digit string becomes an `int`,
any other string is kept unchanged. -/
def chatCoerceStr (s : String) : JVal :=
  if s = "null" then JVal.jnull
  else if pyIsDigit s then JVal.jint (pyParseDigits s)
  else JVal.str s

/-- The `/chat` JSON-path per-value step (app.py lines 254-259) on an
arbitrary `json.loads` value.  On a non-string, `value == "null"` is
`False`, so Python evaluates `value.isdigit()`, which raises
`AttributeError` (message modelled without Python's quoting). -/
def chatCoerceJsonValue : JVal → Except String JVal
  | .str s => .ok (chatCoerceStr s)
  | v => .error ("AttributeError: " ++ v.pyTypeName ++
      " object has no attribute isdigit")

/-- `remove_extra_quotes` (app.py lines 106-114): strips every
double-quote character from keys and from string values; non-string
values are kept unchanged.  Used only by the `/extract` endpoint. -/
def remove_extra_quotes (contract_details : List (String × JVal)) :
    List (String × JVal) :=
  contract_details.foldl
    (fun nd kv =>
      dictInsert nd (stripQuotes kv.1)
        (match kv.2 with
         | .str s => JVal.str (stripQuotes s)
         | v => v))
    []

/-! ## The two line-heuristic parsers -/

/-- One loop iteration of the `/extract` heuristic parser (app.py lines
94-97): on a line containing `:`, split at the first colon and store the
stripped value string under the stripped key; otherwise do nothing. -/
def extractHeurStep (d : List (String × JVal)) (line : String) :
    List (String × JVal) :=
  match splitFirstColon line with
  | Option.none => d
  | some (k, v) => dictInsert d (pyStrip k) (JVal.str (pyStrip v))

/-- The `/extract` heuristic parser over all lines (app.py lines 92-97). -/
def extractHeuristicDetails (response : String) : List (String × JVal) :=
  (pySplitlines response).foldl extractHeurStep []

/-- One loop iteration of the `/chat` heuristic parser (app.py lines
265-273): like the `/extract` one, but the stripped value is coerced
(null marker, integer, or string). -/
def chatHeurStep (d : List (String × JVal)) (line : String) :
    List (String × JVal) :=
  match splitFirstColon line with
  | Option.none => d
  | some (k, v) => dictInsert d (pyStrip k) (chatCoerceStr (pyStrip v))

/-- The `/chat` heuristic parser over all lines (app.py lines 263-273). -/
def chatHeuristicDetails (response : String) : List (String × JVal) :=
  (pySplitlines response).foldl chatHeurStep []

/-! ## Model responses -/

/-- Outcome of `json.loads(response)`: a JSON object (field list in
textual order, duplicate keys already resolved by the JSON parser), some
other valid JSON value, or a `json.JSONDecodeError`. -/
inductive ParseOutcome where
  | obj (fields : List (String × JVal))
  | nonObj (v : JVal)
  | failed

/-- A raw model response paired with the outcome of parsing it with
`json.loads`.  The embedding carries the parse outcome explicitly instead
of re-implementing the JSON grammar. -/
structure ModelText where
  raw : String
  parse : ParseOutcome

/-! ## The `/extract` normalization and handler -/

/-- Normalization inside the `try` block of
`extract_contract_details_with_model` (app.py lines 87-102): JSON object
fields or heuristic fields, then `remove_extra_quotes`.  When `json.loads`
returns a non-dict, `remove_extra_quotes` calls `.items()` on it and
raises `AttributeError`, which the inner `except json.JSONDecodeError`
does not catch. -/
def extractNormalize (mt : ModelText) : Except String (List (String × JVal)) :=
  match mt.parse with
  | .obj fields => .ok (remove_extra_quotes fields)
  | .nonObj v => .error ("AttributeError: " ++ v.pyTypeName ++
      " object has no attribute items")
  | .failed => .ok (remove_extra_quotes (extractHeuristicDetails mt.raw))

/-- `extract_contract_details_with_model` (app.py lines 62-104), as a
function of the gateway call outcome (`client.predict` either returns a
response or raises).  Any exception inside the `try` block — from the
call or from normalization — becomes the `{"error": ...}` dict. -/
def extract_contract_details_with_model (call : Except String ModelText) :
    List (String × JVal) :=
  match call with
  | .error e => [("error", JVal.str ("An error occurred: " ++ e))]
  | .ok mt =>
    match extractNormalize mt with
    | .ok d => d
    | .error e => [("error", JVal.str ("An error occurred: " ++ e))]

/-! ## The `/chat` normalization and handler -/

/-- Worker for the `/chat` JSON-path loop (app.py lines 253-259):
sequentially coerce each value and assign into the contract-details
dict, propagating the `AttributeError` raised on a non-string value. -/
def chatJsonAux (acc : List (String × JVal)) :
    List (String × JVal) → Except String (List (String × JVal))
  | [] => .ok acc
  | (k, v) :: rest =>
    match chatCoerceJsonValue v with
    | .error e => .error e
    | .ok v2 => chatJsonAux (dictInsert acc k v2) rest

/-- The `/chat` JSON-path contract details (app.py lines 245-259). -/
def chatJsonDetails (fields : List (String × JVal)) :
    Except String (List (String × JVal)) :=
  chatJsonAux [] fields

/-- The success shape of the `/chat` response body:
`{"results": [{"file_name": ..., "contract_details": ...}]}`. -/
structure ChatSuccess where
  file_name : String
  contract_details : List (String × JVal)

/-- A `/chat` response body: the results envelope or the
`{"error": ...}` dict produced by the `except` clause. -/
inductive ChatResponse where
  | results (r : ChatSuccess)
  | error (msg : String)

/-- Normalization inside the `try` block of `chat_with_contract`
(app.py lines 241-282). -/
def chatNormalize (contract_id : String) (mt : ModelText) :
    Except String ChatSuccess :=
  match mt.parse with
  | .obj fields =>
    match chatJsonDetails fields with
    | .error e => .error e
    | .ok d => .ok ⟨contract_id, d⟩
  | .nonObj v => .error ("AttributeError: " ++ v.pyTypeName ++
      " object has no attribute items")
  | .failed => .ok ⟨contract_id, chatHeuristicDetails mt.raw⟩

/-- The post-gateway part of `chat_with_contract` (app.py lines 230-284):
the `try` block around `client.predict` and normalization, with any
exception becoming the `{"error": ...}` dict. -/
def chat_with_contract_model (contract_id : String)
    (call : Except String ModelText) : ChatResponse :=
  match call with
  | .error e => .error ("An error occurred: " ++ e)
  | .ok mt =>
    match chatNormalize contract_id mt with
    | .ok s => .results s
    | .error e => .error ("An error occurred: " ++ e)

/-! ## Prompts and the HTTP-level handlers -/

/-- The fixed field list named in both prompts (app.py lines 66 and 218). -/
def fieldListText : String :=
  "Vendor name, contract id, start date, end date, term of contract, next renewal year, scope, type of contract (multiple or single product), contract type (SAAS/Software/Fixed Bid/OEM), number of licenses in contract, cost per license, total license cost, renewal cost, maintenance cost, any other cost, any one-time cost or misc cost, total contract value, annual contract value, First Year P&L impact, Second Year P&L impact, Third Year P&L impact, Fourth Year P&L impact, Fifth Year P&L impact, First year Cash payments, Second year Cash payments, Third year Cash payments, Fourth year Cash payments, Fifth year Cash payments, change in scope with respect to years, change in scope in ﹩ terms, whether YoY change in scope is volume driven, YoY change in active months of contract, Increase in the cost of product/service as agreed to in the contract with vendor (CPI impact %), Increase in the cost of product/service as agreed to in the contract with vendor (CPI impact ﹩), If there is a change in rate/expense mentioned in the contract for next year."

/-- The `/extract` prompt f-string (app.py lines 63-69). -/
def extractPrompt (text : String) : String :=
  "\n            Extract the following details from the given contract and give them in JSON format:\n\n            " ++
  fieldListText ++ "\n\n            Contract text: " ++ text ++ "\n            "

/-- The `/chat` prompt f-string (app.py lines 215-223). -/
def chatPrompt (file_text message : String) : String :=
  "\n            Extract the following details from the given contract and give them in JSON format:\n\n            " ++
  fieldListText ++ "\n\n            Contract text: " ++ file_text ++
  "\n\n            User: " ++ message ++ "\n            "

/-- Python `s.endswith(suffix)`. -/
def pyEndsWith (s suf : String) : Bool :=
  suf.data.isSuffixOf s.data

/-- Outcome of handling one uploaded file inside `/extract`. -/
inductive ExtractOutcome where
  | http (status : Nat) (detail : String)
  | ok (file_name : String) (contract_details : List (String × JVal))

/-- One iteration of the `/extract` upload loop (app.py lines 128-153):
dispatch on the filename extension, reject empty extracted text with
HTTP 400 before building a prompt, otherwise call the model.  `model` is
the gateway (`client.predict` applied to a prompt); `fileText` stands for
the text the PDF/DOCX library extracts from the saved file. -/
def extract_details_one_file (model : String → Except String ModelText)
    (filename fileText : String) : ExtractOutcome :=
  if pyEndsWith filename ".pdf" then
    if fileText = "" then .http 400 "Failed to extract text from the PDF"
    else .ok filename
      (extract_contract_details_with_model (model (extractPrompt fileText)))
  else if pyEndsWith filename ".docx" then
    if fileText = "" then .http 400 "Failed to extract text from the DOCX file"
    else .ok filename
      (extract_contract_details_with_model (model (extractPrompt fileText)))
  else .http 400 "Only PDF and DOCX files are allowed"

/-- The `/extract` handler loop (app.py lines 116-156) over a batch of
files, each given with the text its saved content extracts to.  An
`HTTPException` aborts the whole batch. -/
def extract_details_from_files (model : String → Except String ModelText) :
    List (String × String) →
    Except (Nat × String) (List (String × List (String × JVal)))
  | [] => .ok []
  | (filename, fileText) :: rest =>
    match extract_details_one_file model filename fileText with
    | .http s d => .error (s, d)
    | .ok fn cd =>
      match extract_details_from_files model rest with
      | .error e => .error e
      | .ok rs => .ok ((fn, cd) :: rs)

/-- `get_uploaded_files` (app.py lines 158-165): directory entries with a
`.pdf` or `.docx` extension. -/
def get_uploaded_files (dirListing : List String) : List String :=
  dirListing.filter (fun f => pyEndsWith f ".pdf" || pyEndsWith f ".docx")

/-- Outcome of the whole `/chat` handler: an `HTTPException`, an uncaught
exception propagating out of the handler, or a returned response body. -/
inductive ChatOutcome where
  | http (status : Nat) (detail : String)
  | raised (e : String)
  | response (r : ChatResponse)

/-- `chat_with_contract` (app.py lines 196-284).  `dirListing` is the
upload directory's contents, `fileText` stands for `get_file_text`
(which may raise, outside the `try` block), `model` for the gateway. -/
def chat_with_contract (dirListing : List String) (contract_id : String)
    (fileText : String → Except String String)
    (model : String → Except String ModelText)
    (message : String) : ChatOutcome :=
  if contract_id ∈ get_uploaded_files dirListing then
    match fileText contract_id with
    | .error e => .raised e
    | .ok text =>
      .response (chat_with_contract_model contract_id
        (model (chatPrompt text message)))
  else .http 404 "Contract not found"

/-! ## Spec-level definitions

These definitions follow the words of the specification rather than the
source, for comparison with the source-derived definitions above. -/

/-- Total version of the `/chat` JSON-path per-value coercion, keeping a
non-string value unchanged instead of raising; used only to state what
the `/chat` path computes on all-string objects. -/
def chatCoerceVal : JVal → JVal
  | .str s => chatCoerceStr s
  | v => v

/-- The per-value effect of `remove_extra_quotes`. -/
def quoteStripVal : JVal → JVal
  | .str s => JVal.str (stripQuotes s)
  | v => v

/-- Modelled from the spec (section 3 invariant and section 4.4 step 3):
the claimed uniform field coercion — strip double quotes from keys and
string values, map the trimmed literal `null` to an absent value, convert
trimmed all-digit values to integers, otherwise keep the trimmed string;
non-string values kept unchanged. -/
def specCoerceVal : JVal → JVal
  | .str s =>
    let s2 := pyStrip (stripQuotes s)
    if s2 = "null" then JVal.jnull
    else if pyIsDigit s2 then JVal.jint (pyParseDigits s2)
    else JVal.str s2
  | v => v

/-- Modelled from the spec (section 8, first testable property): the
claimed normalization of a JSON object — the object after quote-stripping
and null/integer coercion of its keys and values. -/
def specNormalizeJson (fields : List (String × JVal)) :
    List (String × JVal) :=
  fields.foldl
    (fun d kv => dictInsert d (stripQuotes kv.1) (specCoerceVal kv.2)) []

/-- Decimal digit string of a natural number (fuel-driven worker; any
fuel above the number itself suffices). -/
def natDecimalGo : Nat → Nat → List Char → List Char
  | 0, _, acc => acc
  | fuel + 1, n, acc =>
    let d := Char.ofNat (48 + n % 10)
    if n < 10 then d :: acc else natDecimalGo fuel (n / 10) (d :: acc)

/-- Decimal rendering of a natural number, e.g. `7` to `"7"`. -/
def natDecimal (n : Nat) : String := ⟨natDecimalGo (n + 1) n []⟩

/-- Modelled from the spec (section 8, coercion-idempotence property):
rendering one already-coerced value as text.  Per the spec's data model
(section 3) a ContractDetails value is a string, an integer, or null; the
null marker renders as the literal `null` and integers render in decimal.
The remaining constructors cannot occur in a coerced mapping and render
as the empty string. -/
def renderValue : JVal → String
  | .str s => s
  | .jint n => natDecimal n.toNat
  | .jnull => "null"
  | _ => ""

/-- Modelled from the spec: one `key: value` line of the round-trip
rendering. -/
def renderLine (kv : String × JVal) : String :=
  kv.1 ++ ": " ++ renderValue kv.2

/-- Modelled from the spec: joining lines with a newline separator. -/
def joinLines : List String → String
  | [] => ""
  | [l] => l
  | l :: rest => l ++ "\n" ++ joinLines rest

/-- Modelled from the spec (section 8): rendering an already-coerced
mapping to `key: value` lines. -/
def renderLines (m : List (String × JVal)) : String :=
  joinLines (m.map renderLine)

/-- A key as produced by the `/chat` heuristic parser: whitespace-stripped,
containing no colon and no line boundary. -/
def isCoercedKey (k : String) : Bool :=
  pyStrip k = k && hasColon k = false &&
  k.data.all (fun c => !isLineBoundary c)

/-- A value as produced by the `/chat` heuristic coercion: the null
marker, a nonnegative integer, or a whitespace-stripped string that is
neither the literal `null` nor all digits and contains no line
boundary. -/
def isCoercedVal : JVal → Bool
  | .jnull => true
  | .jint n => 0 ≤ n
  | .str s =>
    pyStrip s = s && s ≠ "null" && !pyIsDigit s &&
    s.data.all (fun c => !isLineBoundary c)
  | _ => false

/-- An already-coerced ContractDetails mapping as the `/chat` heuristic
path produces it: distinct well-formed keys, well-formed values. -/
def IsCoercedMapping (m : List (String × JVal)) : Prop :=
  (m.map Prod.fst).Nodup ∧
  ∀ kv ∈ m, isCoercedKey kv.1 = true ∧ isCoercedVal kv.2 = true

instance (m : List (String × JVal)) : Decidable (IsCoercedMapping m) := by
  unfold IsCoercedMapping; infer_instance

/-! ## Helper lemmas -/

theorem string_data_append (s t : String) : (s ++ t).data = s.data ++ t.data :=
  rfl

theorem hasColon_iff (line : String) : hasColon line = true ↔ ':' ∈ line.data := by
  simp [hasColon, List.contains, List.elem_iff]

theorem hasColon_eq_false_iff (line : String) :
    hasColon line = false ↔ ∀ c ∈ line.data, c ≠ ':' := by
  rw [← Bool.not_eq_true, hasColon_iff]
  constructor
  · intro h c hc he; exact h (he ▸ hc)
  · intro h hc; exact h ':' hc rfl

theorem splitFirstColonAux_eq_none (l : List Char) (h : ∀ c ∈ l, c ≠ ':') :
    splitFirstColonAux l = Option.none := by
  induction l with
  | nil => rfl
  | cons c rest ih =>
    simp only [splitFirstColonAux]
    rw [if_neg (h c (List.mem_cons_self c rest)),
      ih (fun c2 hc2 => h c2 (List.mem_cons_of_mem c hc2))]
    rfl

theorem splitFirstColonAux_append (k v : List Char) (h : ∀ c ∈ k, c ≠ ':') :
    splitFirstColonAux (k ++ ':' :: v) = some (k, v) := by
  induction k with
  | nil => simp [splitFirstColonAux]
  | cons c rest ih =>
    simp only [List.cons_append, splitFirstColonAux, List.append_eq]
    rw [if_neg (h c (List.mem_cons_self c rest)),
      ih (fun c2 hc2 => h c2 (List.mem_cons_of_mem c hc2))]
    rfl

theorem splitFirstColon_none (line : String) (h : hasColon line = false) :
    splitFirstColon line = Option.none := by
  unfold splitFirstColon
  rw [splitFirstColonAux_eq_none line.data ((hasColon_eq_false_iff line).mp h)]

theorem splitFirstColon_append (k v : String) (h : hasColon k = false) :
    splitFirstColon (k ++ ":" ++ v) = some (k, v) := by
  have hdata : (k ++ ":" ++ v).data = k.data ++ ':' :: v.data := by
    rw [string_data_append, string_data_append, List.append_assoc]
    rfl
  unfold splitFirstColon
  rw [hdata, splitFirstColonAux_append k.data v.data
    ((hasColon_eq_false_iff k).mp h)]

theorem exists_first_colon_chars (l : List Char) (h : ':' ∈ l) :
    ∃ k v, l = k ++ ':' :: v ∧ ∀ c ∈ k, c ≠ ':' := by
  induction l with
  | nil => cases h
  | cons c rest ih =>
    by_cases hc : c = ':'
    · exact ⟨[], rest, by rw [hc]; rfl, by intro c2 hc2; cases hc2⟩
    · have hmem : ':' ∈ rest := by
        rcases List.mem_cons.mp h with h1 | h1
        · exact absurd h1.symm hc
        · exact h1
      obtain ⟨k, v, hkv, hk⟩ := ih hmem
      refine ⟨c :: k, v, by rw [hkv]; rfl, ?_⟩
      intro c2 hc2
      rcases List.mem_cons.mp hc2 with h2 | h2
      · exact h2 ▸ hc
      · exact hk c2 h2

theorem exists_first_colon (line : String) (h : hasColon line = true) :
    ∃ k v, line = k ++ ":" ++ v ∧ hasColon k = false := by
  obtain ⟨kl, vl, hkv, hk⟩ :=
    exists_first_colon_chars line.data ((hasColon_iff line).mp h)
  refine ⟨⟨kl⟩, ⟨vl⟩, ?_, (hasColon_eq_false_iff ⟨kl⟩).mpr hk⟩
  apply String.ext
  rw [hkv, string_data_append, string_data_append, List.append_assoc]
  rfl

theorem dropWhile_eq_self_of_all (p : Char → Bool) (l : List Char)
    (h : ∀ c ∈ l, p c = false) : List.dropWhile p l = l := by
  cases l with
  | nil => rfl
  | cons c rest => simp [List.dropWhile_cons, h c (List.mem_cons_self c rest)]

theorem pyStripChars_eq_self (l : List Char)
    (h : ∀ c ∈ l, isPySpace c = false) : pyStripChars l = l := by
  unfold pyStripChars
  rw [dropWhile_eq_self_of_all _ _ h,
    dropWhile_eq_self_of_all _ _ (fun c hc => h c (List.mem_reverse.mp hc)),
    List.reverse_reverse]

theorem pyStripChars_cons_space (c : Char) (l : List Char)
    (h : isPySpace c = true) : pyStripChars (c :: l) = pyStripChars l := by
  unfold pyStripChars
  rw [List.dropWhile_cons, if_pos h]

theorem pyStrip_space_cons (c : Char) (s : String) (h : isPySpace c = true) :
    pyStrip ⟨c :: s.data⟩ = pyStrip s := by
  show (⟨pyStripChars (c :: s.data)⟩ : String) = ⟨pyStripChars s.data⟩
  rw [pyStripChars_cons_space c s.data h]

theorem dictInsert_of_not_mem (d : List (String × JVal)) (k : String)
    (v : JVal) (h : k ∉ d.map Prod.fst) : dictInsert d k v = d ++ [(k, v)] := by
  induction d with
  | nil => rfl
  | cons kv rest ih =>
    obtain ⟨k0, v0⟩ := kv
    simp only [List.map_cons, List.mem_cons] at h
    push_neg at h
    unfold dictInsert
    rw [if_neg (fun he => h.1 he.symm), ih h.2]
    rfl

theorem boundary_not_digit (c : Char) (hb : isLineBoundary c = true) :
    isAsciiDigit c = false := by
  simp only [isLineBoundary, Bool.or_eq_true, decide_eq_true_eq] at hb
  casesm* _ ∨ _ <;> subst_vars <;> decide

theorem digit_not_boundary (c : Char) (hd : isAsciiDigit c = true) :
    isLineBoundary c = false := by
  by_cases hb : isLineBoundary c = true
  · rw [boundary_not_digit c hb] at hd; cases hd
  · exact Bool.not_eq_true _ ▸ hb

theorem space_not_digit (c : Char) (hs : isPySpace c = true) :
    isAsciiDigit c = false := by
  simp only [isPySpace, Bool.or_eq_true, decide_eq_true_eq] at hs
  casesm* _ ∨ _ <;> subst_vars <;> decide

theorem digit_not_space (c : Char) (hd : isAsciiDigit c = true) :
    isPySpace c = false := by
  by_cases hs : isPySpace c = true
  · rw [space_not_digit c hs] at hd; cases hd
  · exact Bool.not_eq_true _ ▸ hs

theorem digit_ne_colon (c : Char) (hd : isAsciiDigit c = true) : c ≠ ':' := by
  intro h; subst h; cases hd

set_option maxHeartbeats 1000000 in
theorem splitlinesAux_cons_not_boundary (c : Char) (rest acc : List Char)
    (hc : isLineBoundary c = false) :
    splitlinesAux (c :: rest) acc = splitlinesAux rest (c :: acc) := by
  rw [splitlinesAux.eq_3 acc c rest (fun r1 hcr _ => by
    subst hcr; exact absurd hc (by decide))]
  rw [if_neg (by simp [hc])]

theorem splitlinesAux_lf (rest acc : List Char) :
    splitlinesAux ('\n' :: rest) acc = acc.reverse :: splitlinesAux rest [] := by
  rw [splitlinesAux.eq_3 acc '\n' rest (fun r1 hcr _ => by
    exact absurd hcr (by decide))]
  rw [if_pos (by decide)]

theorem splitlinesAux_no_boundary (l : List Char)
    (h : ∀ c ∈ l, isLineBoundary c = false) :
    ∀ acc, acc.reverse ++ l ≠ [] → splitlinesAux l acc = [acc.reverse ++ l] := by
  induction l with
  | nil =>
    intro acc hne
    simp only [List.append_nil] at hne ⊢
    cases acc with
    | nil => exact absurd rfl hne
    | cons a as => simp [splitlinesAux]
  | cons c rest ih =>
    intro acc hne
    rw [splitlinesAux_cons_not_boundary c rest acc
      (h c (List.mem_cons_self c rest))]
    rw [ih (fun c2 h2 => h c2 (List.mem_cons_of_mem c h2)) (c :: acc)
      (by simp)]
    simp [List.reverse_cons, List.append_assoc]

theorem splitlinesAux_sep (l : List Char)
    (h : ∀ c ∈ l, isLineBoundary c = false) :
    ∀ acc rest, splitlinesAux (l ++ '\n' :: rest) acc =
      (acc.reverse ++ l) :: splitlinesAux rest [] := by
  induction l with
  | nil =>
    intro acc rest
    simp only [List.nil_append, List.append_nil]
    exact splitlinesAux_lf rest acc
  | cons c l2 ih =>
    intro acc rest
    rw [List.cons_append, splitlinesAux_cons_not_boundary c _ acc
      (h c (List.mem_cons_self c l2))]
    rw [ih (fun c2 h2 => h c2 (List.mem_cons_of_mem c h2)) (c :: acc) rest]
    simp [List.reverse_cons, List.append_assoc]

theorem pySplitlines_joinLines (lines : List String)
    (h : ∀ l ∈ lines, l.data ≠ [] ∧ ∀ c ∈ l.data, isLineBoundary c = false) :
    pySplitlines (joinLines lines) = lines := by
  induction lines with
  | nil => rfl
  | cons l rest ih =>
    cases rest with
    | nil =>
      obtain ⟨hne, hnb⟩ := h l (List.mem_cons_self l [])
      show (splitlinesAux (joinLines [l]).data []).map _ = [l]
      have hj : joinLines [l] = l := rfl
      rw [hj, splitlinesAux_no_boundary l.data hnb [] (by simpa using hne)]
      rfl
    | cons l2 rest2 =>
      obtain ⟨hne, hnb⟩ := h l (List.mem_cons_self l (l2 :: rest2))
      have hjoin : (joinLines (l :: l2 :: rest2)).data
          = l.data ++ '\n' :: (joinLines (l2 :: rest2)).data := by
        show (l ++ "\n" ++ joinLines (l2 :: rest2)).data = _
        rw [string_data_append, string_data_append, List.append_assoc]
        rfl
      show (splitlinesAux (joinLines (l :: l2 :: rest2)).data []).map _
          = l :: l2 :: rest2
      rw [hjoin, splitlinesAux_sep l.data hnb [] _, List.map_cons]
      refine congrArg₂ _ rfl ?_
      exact ih (fun l3 h3 => h l3 (List.mem_cons_of_mem l h3))

theorem char_ofNat_digit_toNat (m : Nat) (h : m < 10) :
    (Char.ofNat (48 + m)).toNat = 48 + m := by
  interval_cases m <;> decide

theorem char_ofNat_digit_isDigit (m : Nat) (h : m < 10) :
    isAsciiDigit (Char.ofNat (48 + m)) = true := by
  interval_cases m <;> decide

theorem natDecimalGo_foldl (fuel : Nat) : ∀ n acc, n < fuel →
    List.foldl (fun a c => 10 * a + (c.toNat - 48)) 0 (natDecimalGo fuel n acc)
      = List.foldl (fun a c => 10 * a + (c.toNat - 48)) n acc := by
  induction fuel with
  | zero => intro n acc hn; omega
  | succ fuel ih =>
    intro n acc hn
    show List.foldl _ 0
        (if n < 10 then Char.ofNat (48 + n % 10) :: acc
         else natDecimalGo fuel (n / 10) (Char.ofNat (48 + n % 10) :: acc)) = _
    by_cases h10 : n < 10
    · rw [if_pos h10, List.foldl_cons, char_ofNat_digit_toNat (n % 10) (by omega)]
      have hnn : 10 * 0 + (48 + n % 10 - 48) = n := by omega
      rw [hnn]
    · rw [if_neg h10]
      have hdiv : n / 10 < fuel := by
        have h1 : n / 10 < n := Nat.div_lt_self (by omega) (by omega)
        omega
      rw [ih (n / 10) (Char.ofNat (48 + n % 10) :: acc) hdiv, List.foldl_cons,
        char_ofNat_digit_toNat (n % 10) (by omega)]
      have hnn : 10 * (n / 10) + (48 + n % 10 - 48) = n := by omega
      rw [hnn]

theorem pyParseDigits_natDecimal (n : Nat) : pyParseDigits (natDecimal n) = n := by
  show List.foldl _ 0 (natDecimalGo (n + 1) n []) = n
  rw [natDecimalGo_foldl (n + 1) n [] (by omega)]
  rfl

theorem natDecimalGo_all_digit (fuel : Nat) : ∀ n acc,
    (∀ c ∈ acc, isAsciiDigit c = true) →
    ∀ c ∈ natDecimalGo fuel n acc, isAsciiDigit c = true := by
  induction fuel with
  | zero => intro n acc hacc; exact hacc
  | succ fuel ih =>
    intro n acc hacc c hc
    have hstep : ∀ c2 ∈ Char.ofNat (48 + n % 10) :: acc, isAsciiDigit c2 = true := by
      intro c2 hc2
      rcases List.mem_cons.mp hc2 with he | hm
      · exact he ▸ char_ofNat_digit_isDigit (n % 10) (by omega)
      · exact hacc c2 hm
    show isAsciiDigit c = true
    by_cases h10 : n < 10
    · have : natDecimalGo (fuel + 1) n acc = Char.ofNat (48 + n % 10) :: acc := by
        show (if n < 10 then _ else _) = _
        rw [if_pos h10]
      exact hstep c (this ▸ hc)
    · have : natDecimalGo (fuel + 1) n acc
          = natDecimalGo fuel (n / 10) (Char.ofNat (48 + n % 10) :: acc) := by
        show (if n < 10 then _ else _) = _
        rw [if_neg h10]
      exact ih (n / 10) _ hstep c (this ▸ hc)

theorem natDecimalGo_ne_nil (fuel : Nat) : ∀ n acc, acc ≠ [] →
    natDecimalGo fuel n acc ≠ [] := by
  induction fuel with
  | zero => intro n acc hacc; exact hacc
  | succ fuel ih =>
    intro n acc hacc
    show (if n < 10 then _ else _) ≠ []
    by_cases h10 : n < 10
    · rw [if_pos h10]; simp
    · rw [if_neg h10]
      exact ih (n / 10) _ (by simp)

theorem natDecimal_ne_nil (n : Nat) : (natDecimal n).data ≠ [] := by
  show natDecimalGo (n + 1) n [] ≠ []
  show (if n < 10 then _ else _) ≠ []
  by_cases h10 : n < 10
  · rw [if_pos h10]; simp
  · rw [if_neg h10]
    exact natDecimalGo_ne_nil n (n / 10) _ (by simp)

theorem natDecimal_all_digit (n : Nat) :
    ∀ c ∈ (natDecimal n).data, isAsciiDigit c = true := by
  show ∀ c ∈ natDecimalGo (n + 1) n [], isAsciiDigit c = true
  exact natDecimalGo_all_digit (n + 1) n [] (by intro c hc; cases hc)

theorem pyIsDigit_natDecimal (n : Nat) : pyIsDigit (natDecimal n) = true := by
  unfold pyIsDigit
  rw [Bool.and_eq_true]
  constructor
  · rw [Bool.not_eq_true']
    cases hd : (natDecimal n).data with
    | nil => exact absurd hd (natDecimal_ne_nil n)
    | cons c l => rfl
  · rw [List.all_eq_true]
    exact natDecimal_all_digit n

theorem natDecimal_ne_null (n : Nat) : natDecimal n ≠ "null" := by
  intro h
  have h1 := pyIsDigit_natDecimal n
  rw [h] at h1
  exact absurd h1 (by decide)

theorem pyStrip_natDecimal (n : Nat) : pyStrip (natDecimal n) = natDecimal n := by
  apply String.ext
  show pyStripChars (natDecimal n).data = (natDecimal n).data
  exact pyStripChars_eq_self _ (fun c hc =>
    digit_not_space c (natDecimal_all_digit n c hc))

theorem chatCoerceStr_natDecimal (m : Nat) :
    chatCoerceStr (natDecimal m) = JVal.jint m := by
  unfold chatCoerceStr
  rw [if_neg (natDecimal_ne_null m), if_pos (pyIsDigit_natDecimal m),
    pyParseDigits_natDecimal m]

theorem isCoercedKey_spec (k : String) (h : isCoercedKey k = true) :
    pyStrip k = k ∧ hasColon k = false ∧
    ∀ c ∈ k.data, isLineBoundary c = false := by
  simp only [isCoercedKey, Bool.and_eq_true, decide_eq_true_eq,
    List.all_eq_true, Bool.not_eq_true'] at h
  exact ⟨h.1.1, h.1.2, h.2⟩

theorem renderValue_facts (v : JVal) (h : isCoercedVal v = true) :
    pyStrip (renderValue v) = renderValue v ∧
    chatCoerceStr (renderValue v) = v ∧
    ∀ c ∈ (renderValue v).data, isLineBoundary c = false := by
  cases v with
  | jnull =>
    refine ⟨by decide, rfl, by decide⟩
  | jint n =>
    have hn : 0 ≤ n := by
      simp only [isCoercedVal, decide_eq_true_eq] at h
      exact h
    refine ⟨pyStrip_natDecimal n.toNat, ?_, ?_⟩
    · show chatCoerceStr (natDecimal n.toNat) = JVal.jint n
      rw [chatCoerceStr_natDecimal n.toNat, Int.toNat_of_nonneg hn]
    · exact fun c hc => digit_not_boundary c (natDecimal_all_digit n.toNat c hc)
  | str s =>
    simp only [isCoercedVal, Bool.and_eq_true, decide_eq_true_eq,
      List.all_eq_true, Bool.not_eq_true', bne_iff_ne, ne_eq] at h
    obtain ⟨⟨⟨hstrip, hnull⟩, hdig⟩, hnb⟩ := h
    refine ⟨hstrip, ?_, hnb⟩
    show chatCoerceStr s = JVal.str s
    unfold chatCoerceStr
    rw [if_neg hnull, if_neg (by simp [hdig])]
  | jbool b => simp [isCoercedVal] at h
  | jarr xs => simp [isCoercedVal] at h
  | jobj fs => simp [isCoercedVal] at h

theorem chatJsonAux_error_of_nonstring (fs : List (String × JVal)) : ∀ acc,
    (∃ kv ∈ fs, kv.2.isStr = false) →
    ∃ e, chatJsonAux acc fs = .error e := by
  induction fs with
  | nil =>
    intro acc h
    obtain ⟨kv, hmem, _⟩ := h
    cases hmem
  | cons kv rest ih =>
    intro acc h
    obtain ⟨kv0, hmem, hns⟩ := h
    obtain ⟨k, v⟩ := kv
    cases v with
    | str s =>
      have hr : kv0 ∈ rest := by
        rcases List.mem_cons.mp hmem with he | hr
        · subst he; simp [JVal.isStr] at hns
        · exact hr
      show ∃ e, chatJsonAux (dictInsert acc k (chatCoerceStr s)) rest = .error e
      exact ih _ ⟨kv0, hr, hns⟩
    | jint n => exact ⟨_, rfl⟩
    | jnull => exact ⟨_, rfl⟩
    | jbool b => exact ⟨_, rfl⟩
    | jarr xs => exact ⟨_, rfl⟩
    | jobj fs2 => exact ⟨_, rfl⟩

theorem chatJsonAux_all_strings (fs : List (String × JVal)) : ∀ acc,
    (∀ kv ∈ fs, kv.2.isStr = true) →
    (fs.map Prod.fst).Nodup →
    (∀ k2 ∈ fs.map Prod.fst, k2 ∉ acc.map Prod.fst) →
    chatJsonAux acc fs
      = .ok (acc ++ fs.map fun kv => (kv.1, chatCoerceVal kv.2)) := by
  induction fs with
  | nil => intro acc _ _ _; simp [chatJsonAux]
  | cons kv rest ih =>
    intro acc hstr hnd hdis
    obtain ⟨k, v⟩ := kv
    have hv := hstr (k, v) (List.mem_cons_self _ _)
    cases v with
    | str s =>
      show chatJsonAux (dictInsert acc k (chatCoerceStr s)) rest = _
      rw [dictInsert_of_not_mem acc k _ (hdis k (by simp))]
      have hnd' : (rest.map Prod.fst).Nodup := by
        simp only [List.map_cons, List.nodup_cons] at hnd
        exact hnd.2
      have hknotin : k ∉ rest.map Prod.fst := by
        simp only [List.map_cons, List.nodup_cons] at hnd
        exact hnd.1
      have hdis' : ∀ k2 ∈ rest.map Prod.fst,
          k2 ∉ (acc ++ [(k, chatCoerceStr s)]).map Prod.fst := by
        intro k2 h2
        rw [List.map_append, List.mem_append]
        push_neg
        refine ⟨hdis k2 (by simp [h2]), ?_⟩
        simp only [List.map_cons, List.map_nil, List.mem_singleton]
        intro he
        subst he
        exact hknotin h2
      rw [ih (acc ++ [(k, chatCoerceStr s)])
        (fun kv2 h2 => hstr kv2 (List.mem_cons_of_mem _ h2)) hnd' hdis']
      simp [List.append_assoc, chatCoerceVal]
    | jint n => simp [JVal.isStr] at hv
    | jnull => simp [JVal.isStr] at hv
    | jbool b => simp [JVal.isStr] at hv
    | jarr xs => simp [JVal.isStr] at hv
    | jobj fs2 => simp [JVal.isStr] at hv

theorem renderLine_eq (k : String) (v : JVal) :
    renderLine (k, v) = k ++ ":" ++ (" " ++ renderValue v) := by
  apply String.ext
  show (k ++ ": " ++ renderValue v).data = _
  simp only [string_data_append, List.append_assoc]
  rfl

theorem pyStrip_space_append (rv : String) (h : pyStrip rv = rv) :
    pyStrip (" " ++ rv) = rv := by
  have he : (" " ++ rv) = (⟨' ' :: rv.data⟩ : String) := by
    apply String.ext
    rfl
  rw [he, pyStrip_space_cons ' ' rv (by decide), h]

theorem chatHeurStep_renderLine (acc : List (String × JVal)) (k : String)
    (v : JVal) (hk : isCoercedKey k = true) (hv : isCoercedVal v = true) :
    chatHeurStep acc (renderLine (k, v)) = dictInsert acc k v := by
  obtain ⟨hkstrip, hkcolon, _⟩ := isCoercedKey_spec k hk
  obtain ⟨hvstrip, hvcoerce, _⟩ := renderValue_facts v hv
  unfold chatHeurStep
  rw [renderLine_eq, splitFirstColon_append k _ hkcolon]
  show dictInsert acc (pyStrip k) (chatCoerceStr (pyStrip (" " ++ renderValue v)))
      = dictInsert acc k v
  rw [hkstrip, pyStrip_space_append _ hvstrip, hvcoerce]

theorem renderLine_wf (k : String) (v : JVal) (hk : isCoercedKey k = true)
    (hv : isCoercedVal v = true) :
    (renderLine (k, v)).data ≠ [] ∧
    ∀ c ∈ (renderLine (k, v)).data, isLineBoundary c = false := by
  obtain ⟨_, _, hkb⟩ := isCoercedKey_spec k hk
  obtain ⟨_, _, hvb⟩ := renderValue_facts v hv
  have hdata : (renderLine (k, v)).data
      = k.data ++ ':' :: ' ' :: (renderValue v).data := by
    show (k ++ ": " ++ renderValue v).data = _
    simp only [string_data_append, List.append_assoc]
    rfl
  constructor
  · rw [hdata]; simp
  · rw [hdata]
    intro c hc
    rcases List.mem_append.mp hc with h1 | h1
    · exact hkb c h1
    · rcases List.mem_cons.mp h1 with he | h2
      · subst he; decide
      · rcases List.mem_cons.mp h2 with he | h3
        · subst he; decide
        · exact hvb c h3

theorem foldl_chatHeurStep_render (m : List (String × JVal)) : ∀ acc,
    IsCoercedMapping m →
    (∀ k2 ∈ m.map Prod.fst, k2 ∉ acc.map Prod.fst) →
    List.foldl chatHeurStep acc (m.map renderLine) = acc ++ m := by
  induction m with
  | nil => intro acc _ _; simp
  | cons kv rest ih =>
    intro acc hm hdis
    obtain ⟨k, v⟩ := kv
    obtain ⟨hnd, hwf⟩ := hm
    have hkv := hwf (k, v) (List.mem_cons_self _ _)
    simp only [List.map_cons, List.foldl_cons]
    rw [chatHeurStep_renderLine acc k v hkv.1 hkv.2]
    rw [dictInsert_of_not_mem acc k v (hdis k (by simp))]
    have hnd' : (rest.map Prod.fst).Nodup := by
      simp only [List.map_cons, List.nodup_cons] at hnd
      exact hnd.2
    have hknotin : k ∉ rest.map Prod.fst := by
      simp only [List.map_cons, List.nodup_cons] at hnd
      exact hnd.1
    have hdis' : ∀ k2 ∈ rest.map Prod.fst,
        k2 ∉ (acc ++ [(k, v)]).map Prod.fst := by
      intro k2 h2
      rw [List.map_append, List.mem_append]
      push_neg
      refine ⟨hdis k2 (by simp [h2]), ?_⟩
      simp only [List.map_cons, List.map_nil, List.mem_singleton]
      intro he
      subst he
      exact hknotin h2
    rw [ih (acc ++ [(k, v)])
      ⟨hnd', fun kv2 h2 => hwf kv2 (List.mem_cons_of_mem _ h2)⟩ hdis']
    simp [List.append_assoc]

theorem remove_extra_quotes_eq_fold (fields : List (String × JVal)) :
    remove_extra_quotes fields
      = fields.foldl
          (fun nd kv => dictInsert nd (stripQuotes kv.1) (quoteStripVal kv.2))
          [] := by
  unfold remove_extra_quotes
  congr 1

theorem quoteStrip_foldl (fields : List (String × JVal)) : ∀ acc,
    (fields.map fun kv => stripQuotes kv.1).Nodup →
    (∀ k2 ∈ fields.map (fun kv => stripQuotes kv.1), k2 ∉ acc.map Prod.fst) →
    List.foldl
      (fun nd kv => dictInsert nd (stripQuotes kv.1) (quoteStripVal kv.2))
      acc fields
      = acc ++ fields.map fun kv => (stripQuotes kv.1, quoteStripVal kv.2) := by
  induction fields with
  | nil => intro acc _ _; simp
  | cons kv rest ih =>
    intro acc hnd hdis
    obtain ⟨k, v⟩ := kv
    simp only [List.foldl_cons]
    rw [dictInsert_of_not_mem acc (stripQuotes k) _
      (hdis (stripQuotes k) (by simp))]
    have hnd' : (rest.map fun kv2 => stripQuotes kv2.1).Nodup := by
      simp only [List.map_cons, List.nodup_cons] at hnd
      exact hnd.2
    have hknotin : stripQuotes k ∉ rest.map fun kv2 => stripQuotes kv2.1 := by
      simp only [List.map_cons, List.nodup_cons] at hnd
      exact hnd.1
    have hdis' : ∀ k2 ∈ rest.map (fun kv2 => stripQuotes kv2.1),
        k2 ∉ (acc ++ [(stripQuotes k, quoteStripVal v)]).map Prod.fst := by
      intro k2 h2
      rw [List.map_append, List.mem_append]
      push_neg
      refine ⟨hdis k2 (by simp [h2]), ?_⟩
      simp only [List.map_cons, List.map_nil, List.mem_singleton]
      intro he
      subst he
      exact hknotin h2
    rw [ih (acc ++ [(stripQuotes k, quoteStripVal v)]) hnd' hdis']
    simp [List.append_assoc]

/-! ## Claim theorems -/

/-- C7: any exception raised during the remote model call is caught and
converted into an error-shaped mapping returned in place of the contract
details, in both the `/extract` and the `/chat` normalization, so the
caller receives a response body instead of a propagated exception. -/
theorem c7_gateway_failure_is_error_envelope (e contract_id : String) :
    extract_contract_details_with_model (.error e)
      = [("error", JVal.str ("An error occurred: " ++ e))] ∧
    chat_with_contract_model contract_id (.error e)
      = ChatResponse.error ("An error occurred: " ++ e) :=
  ⟨rfl, rfl⟩

/-- C3: when the `/chat` model response parses as a JSON object with at
least one non-string value, the per-value coercion raises, and the
handler returns the error envelope for the whole call instead of the
parsed contract details. -/
theorem c3_chat_nonstring_value_errors (contract_id raw : String)
    (fields : List (String × JVal))
    (h : ∃ kv ∈ fields, kv.2.isStr = false) :
    ∃ e, chat_with_contract_model contract_id (.ok ⟨raw, .obj fields⟩)
      = ChatResponse.error ("An error occurred: " ++ e) := by
  obtain ⟨e, he⟩ := chatJsonAux_error_of_nonstring fields [] h
  refine ⟨e, ?_⟩
  have hnorm : chatNormalize contract_id ⟨raw, .obj fields⟩
      = match chatJsonAux [] fields with
        | .error e2 => Except.error e2
        | .ok d => Except.ok ⟨contract_id, d⟩ := rfl
  have hnorm2 : chatNormalize contract_id ⟨raw, .obj fields⟩
      = Except.error e := by
    rw [hnorm, he]
  show (match chatNormalize contract_id ⟨raw, .obj fields⟩ with
        | .ok s => ChatResponse.results s
        | .error e2 => ChatResponse.error ("An error occurred: " ++ e2)) = _
  rw [hnorm2]

/-- Witness for C3: a JSON number value makes the whole `/chat` call
return an error envelope. -/
theorem c3_witness :
    ∃ e, chat_with_contract_model "c.pdf"
        (.ok ⟨"", ParseOutcome.obj [("a", JVal.jint 5)]⟩)
      = ChatResponse.error ("An error occurred: " ++ e) :=
  c3_chat_nonstring_value_errors "c.pdf" "" [("a", JVal.jint 5)]
    ⟨("a", JVal.jint 5), List.mem_cons_self _ _, rfl⟩

/-- C8: a `.pdf` or `.docx` upload whose extracted text is empty makes
`/extract` fail with HTTP 400, and the outcome does not depend on the
model gateway, which is therefore never consulted for that document. -/
theorem c8_extract_empty_text_400 (model : String → Except String ModelText)
    (filename : String)
    (h : pyEndsWith filename ".pdf" = true ∨
      pyEndsWith filename ".docx" = true) :
    (∃ detail, extract_details_one_file model filename ""
      = .http 400 detail) ∧
    (∀ model2, extract_details_one_file model filename ""
      = extract_details_one_file model2 filename "") := by
  by_cases hp : pyEndsWith filename ".pdf" = true
  · constructor
    · exact ⟨"Failed to extract text from the PDF",
        by simp [extract_details_one_file, hp]⟩
    · intro model2
      simp [extract_details_one_file, hp]
  · have hd : pyEndsWith filename ".docx" = true := by
      rcases h with h1 | h1
      · exact absurd h1 hp
      · exact h1
    constructor
    · exact ⟨"Failed to extract text from the DOCX file",
        by simp [extract_details_one_file, hp, hd]⟩
    · intro model2
      simp [extract_details_one_file, hp, hd]

/-- Witness for C8: an empty-text PDF upload gets HTTP 400. -/
theorem c8_witness :
    ∃ detail, extract_details_one_file (fun _ => Except.error "down")
      "a.pdf" "" = ExtractOutcome.http 400 detail :=
  (c8_extract_empty_text_400 (fun _ => Except.error "down") "a.pdf"
    (Or.inl (by decide))).1

/-- C10: a `/chat` request whose contract id is not among the stored
files with a recognized extension fails with HTTP 404, independently of
the file reader and the model gateway, which are therefore never
consulted. -/
theorem c10_chat_unknown_contract_404 (dirListing : List String)
    (contract_id message : String)
    (fileText : String → Except String String)
    (model : String → Except String ModelText)
    (h : contract_id ∉ get_uploaded_files dirListing) :
    chat_with_contract dirListing contract_id fileText model message
      = ChatOutcome.http 404 "Contract not found" ∧
    ∀ fileText2 model2,
      chat_with_contract dirListing contract_id fileText2 model2 message
        = ChatOutcome.http 404 "Contract not found" := by
  constructor
  · unfold chat_with_contract
    rw [if_neg h]
  · intro ft2 m2
    unfold chat_with_contract
    rw [if_neg h]

/-- Witness for C10: chatting with a never-uploaded contract id. -/
theorem c10_witness :
    chat_with_contract ["a.pdf"] "unknown.pdf" (fun _ => Except.error "io")
      (fun _ => Except.error "net") "hi"
      = ChatOutcome.http 404 "Contract not found" :=
  (c10_chat_unknown_contract_404 ["a.pdf"] "unknown.pdf" "hi"
    (fun _ => Except.error "io") (fun _ => Except.error "net")
    (by decide)).1

/-- C4: on both heuristic parsers, a line without a colon contributes
nothing; a line with a colon decomposes uniquely at its first colon; and
for the decomposition at the first colon (the part before it being
colon-free), the line contributes exactly one field whose name is the
trimmed left part and whose raw value is the trimmed right part, which
may itself contain colons. -/
theorem c4_heuristic_first_colon_split (line k v : String)
    (d : List (String × JVal)) :
    (hasColon line = false →
      extractHeurStep d line = d ∧ chatHeurStep d line = d) ∧
    (hasColon line = true →
      ∃ k2 v2, line = k2 ++ ":" ++ v2 ∧ hasColon k2 = false) ∧
    (line = k ++ ":" ++ v → hasColon k = false →
      extractHeurStep d line
        = dictInsert d (pyStrip k) (JVal.str (pyStrip v)) ∧
      chatHeurStep d line
        = dictInsert d (pyStrip k) (chatCoerceStr (pyStrip v))) := by
  refine ⟨?_, exists_first_colon line, ?_⟩
  · intro h
    constructor
    · unfold extractHeurStep
      rw [splitFirstColon_none line h]
    · unfold chatHeurStep
      rw [splitFirstColon_none line h]
  · intro hline hk
    subst hline
    constructor
    · unfold extractHeurStep
      rw [splitFirstColon_append k v hk]
    · unfold chatHeurStep
      rw [splitFirstColon_append k v hk]

/-- Witness for C4: a value keeps its own colons; a colon-free line is
discarded. -/
theorem c4_witness :
    extractHeurStep [] "Vendor : ACME: Inc" = [("Vendor", JVal.str "ACME: Inc")] ∧
    chatHeurStep [] "no colon line" = [] :=
  ⟨((c4_heuristic_first_colon_split "Vendor : ACME: Inc" "Vendor "
      " ACME: Inc" []).2.2 (by decide) (by decide)).1.trans rfl,
   ((c4_heuristic_first_colon_split "no colon line" "" "" []).1
      (by decide)).2⟩

/-- C5 counterexample: on the `/extract` endpoint a field whose trimmed
raw value is the literal text `null` stays the string `null`; it is not
represented as an absent/null value, so the coercion is not applied on
every endpoint. -/
theorem c5_counterexample :
    extract_contract_details_with_model (.ok ⟨"a: null", ParseOutcome.failed⟩)
      = [("a", JVal.str "null")] ∧
    ([("a", JVal.str "null")] : List (String × JVal)) ≠ [("a", JVal.jnull)] := by
  refine ⟨rfl, ?_⟩
  intro h
  injection h with h1 _
  injection h1 with _ h2
  exact JVal.noConfusion h2

/-- C5 amended: only the `/chat` endpoint represents the literal text
`null` as an explicit null, and the two parse paths test different
strings: the heuristic path maps every field whose whitespace-stripped
raw value is `null` to an explicit null, while the JSON path maps a
string value to an explicit null exactly when the raw, untrimmed string
is `null` (so a JSON value such as a space followed by `null` stays a
string); the `/extract` endpoint keeps the string `null` unchanged. -/
theorem c5_chat_null_both_paths (k v s : String) (d : List (String × JVal))
    (hk : hasColon k = false) (hv : pyStrip v = "null") :
    chatHeurStep d (k ++ ":" ++ v) = dictInsert d (pyStrip k) JVal.jnull ∧
    (chatCoerceJsonValue (JVal.str s) = .ok JVal.jnull ↔ s = "null") ∧
    extractHeurStep d (k ++ ":" ++ v)
      = dictInsert d (pyStrip k) (JVal.str "null") := by
  refine ⟨?_, ⟨?_, ?_⟩, ?_⟩
  · unfold chatHeurStep
    rw [splitFirstColon_append k v hk]
    show dictInsert d (pyStrip k) (chatCoerceStr (pyStrip v)) = _
    rw [hv]
    rfl
  · intro h
    have h2 : Except.ok (chatCoerceStr s) = Except.ok JVal.jnull := h
    injection h2 with h3
    by_contra hne
    unfold chatCoerceStr at h3
    rw [if_neg hne] at h3
    by_cases hd2 : pyIsDigit s = true
    · rw [if_pos hd2] at h3
      exact JVal.noConfusion h3
    · rw [if_neg hd2] at h3
      exact JVal.noConfusion h3
  · intro h
    subst h
    rfl
  · unfold extractHeurStep
    rw [splitFirstColon_append k v hk]
    show dictInsert d (pyStrip k) (JVal.str (pyStrip v)) = _
    rw [hv]

/-- Witness for C5: the `/chat` heuristic path turns `a: null` into a
null field, while the JSON path keeps the untrimmed string consisting of
a space followed by `null`. -/
theorem c5_witness :
    chatHeurStep [] "a: null" = [("a", JVal.jnull)] ∧
    chatCoerceJsonValue (JVal.str " null") ≠ .ok JVal.jnull :=
  ⟨((c5_chat_null_both_paths "a" " null" " null" [] (by decide)
      (by decide)).1).trans rfl,
   fun h => absurd ((c5_chat_null_both_paths "a" " null" " null" []
      (by decide) (by decide)).2.1.mp h) (by decide)⟩

/-- C6 counterexample: on the `/extract` endpoint an all-digit value such
as `007` stays a string and is not converted to the integer `7`, so the
digit coercion is not applied on every endpoint. -/
theorem c6_counterexample :
    extract_contract_details_with_model (.ok ⟨"a: 007", ParseOutcome.failed⟩)
      = [("a", JVal.str "007")] ∧
    ([("a", JVal.str "007")] : List (String × JVal)) ≠ [("a", JVal.jint 7)] := by
  refine ⟨rfl, ?_⟩
  intro h
  injection h with h1 _
  injection h1 with _ h2
  exact JVal.noConfusion h2

/-- C6 amended: only the `/chat` endpoint converts all-digit values to
integers, and the two parse paths test different strings: the heuristic
path converts every field whose whitespace-stripped raw value is all
digits (`007` becomes the integer `7`, `12.5` stays a string), while the
JSON path converts a string value exactly when the raw, untrimmed string
is all digits and otherwise keeps it unchanged (so a JSON value such as a
space followed by `7` stays an untrimmed string); the `/extract` endpoint
performs no digit coercion and keeps the trimmed digit string. -/
theorem c6_chat_digit_both_paths (k v s : String) (d : List (String × JVal))
    (hk : hasColon k = false) (hd : pyIsDigit (pyStrip v) = true) :
    chatHeurStep d (k ++ ":" ++ v)
      = dictInsert d (pyStrip k) (JVal.jint (pyParseDigits (pyStrip v))) ∧
    (pyIsDigit s = true →
      chatCoerceJsonValue (JVal.str s) = .ok (JVal.jint (pyParseDigits s))) ∧
    (s ≠ "null" → pyIsDigit s = false →
      chatCoerceJsonValue (JVal.str s) = .ok (JVal.str s)) ∧
    chatCoerceStr "007" = JVal.jint 7 ∧
    chatCoerceStr "12.5" = JVal.str "12.5" ∧
    extractHeurStep d (k ++ ":" ++ v)
      = dictInsert d (pyStrip k) (JVal.str (pyStrip v)) := by
  refine ⟨?_, ?_, ?_, rfl, rfl, ?_⟩
  · unfold chatHeurStep
    rw [splitFirstColon_append k v hk]
    show dictInsert d (pyStrip k) (chatCoerceStr (pyStrip v)) = _
    have hnn : pyStrip v ≠ "null" := by
      intro he
      rw [he] at hd
      exact absurd hd (by decide)
    unfold chatCoerceStr
    rw [if_neg hnn, if_pos hd]
  · intro hds
    have hnn : s ≠ "null" := by
      intro he
      rw [he] at hds
      exact absurd hds (by decide)
    show Except.ok (chatCoerceStr s) = _
    unfold chatCoerceStr
    rw [if_neg hnn, if_pos hds]
  · intro hnn hnd2
    show Except.ok (chatCoerceStr s) = _
    unfold chatCoerceStr
    rw [if_neg hnn, if_neg (by simp [hnd2])]
  · unfold extractHeurStep
    rw [splitFirstColon_append k v hk]

/-- Witness for C6: the `/chat` heuristic path turns `a: 007` into the
integer `7`, while the JSON path keeps the untrimmed string consisting of
a space followed by `7`. -/
theorem c6_witness :
    chatHeurStep [] "a: 007" = [("a", JVal.jint 7)] ∧
    chatCoerceJsonValue (JVal.str " 7") = .ok (JVal.str " 7") :=
  ⟨((c6_chat_digit_both_paths "a" " 007" " 7" [] (by decide)
      (by decide)).1).trans rfl,
   (c6_chat_digit_both_paths "a" " 007" " 7" [] (by decide)
      (by decide)).2.2.1 (by decide) (by decide)⟩

/-- C1 counterexample: the same parsed model response receives different
field coercions in the two endpoints: `/extract` keeps the string `null`
(quote-stripping only) while `/chat` maps it to a null field
(null/integer coercion only), so the three coercions are not applied
identically in `/extract` and `/chat`. -/
theorem c1_counterexample :
    extract_contract_details_with_model
        (.ok ⟨"", ParseOutcome.obj [("a", JVal.str "null")]⟩)
      = [("a", JVal.str "null")] ∧
    chat_with_contract_model "c.pdf"
        (.ok ⟨"", ParseOutcome.obj [("a", JVal.str "null")]⟩)
      = ChatResponse.results ⟨"c.pdf", [("a", JVal.jnull)]⟩ ∧
    ([("a", JVal.str "null")] : List (String × JVal)) ≠ [("a", JVal.jnull)] := by
  refine ⟨rfl, rfl, ?_⟩
  intro h
  injection h with h1 _
  injection h1 with _ h2
  exact JVal.noConfusion h2

/-- C1 amended: within each endpoint the two parse paths apply the same
per-field treatment — `/extract` funnels both paths through the same
quote-stripping pass, and `/chat` applies the same string coercion on
both paths (on the raw string in the JSON path, on the whitespace-stripped
string in the heuristic path, which agree whenever the string is already
stripped) — but the two endpoints do not apply the same coercions. -/
theorem c1_per_endpoint_uniformity (raw s : String)
    (fields : List (String × JVal)) (hs : pyStrip s = s) :
    extractNormalize ⟨raw, ParseOutcome.obj fields⟩
      = .ok (remove_extra_quotes fields) ∧
    extractNormalize ⟨raw, ParseOutcome.failed⟩
      = .ok (remove_extra_quotes (extractHeuristicDetails raw)) ∧
    chatCoerceJsonValue (JVal.str s) = .ok (chatCoerceStr (pyStrip s)) := by
  refine ⟨rfl, rfl, ?_⟩
  rw [hs]
  rfl

/-- Witness for C1 (amended): the JSON-path and heuristic-path coercions
of `/chat` agree on a stripped string. -/
theorem c1_witness :
    chatCoerceJsonValue (JVal.str "x") = .ok (chatCoerceStr (pyStrip "x")) :=
  (c1_per_endpoint_uniformity "" "x" [] (by decide)).2.2

/-- C2 counterexample: for raw text that is a valid JSON object, neither
endpoint returns the object after quote-stripping AND null/integer
coercion: `/extract` skips the null coercion (the literal `null` stays a
string) and `/chat` skips quote-stripping and trimming (the value
consisting of a space and `7`, whose trimmed form is all digits, stays an
untrimmed string). -/
theorem c2_counterexample :
    specNormalizeJson [("a", JVal.str "null")] = [("a", JVal.jnull)] ∧
    extract_contract_details_with_model
        (.ok ⟨"", ParseOutcome.obj [("a", JVal.str "null")]⟩)
      = [("a", JVal.str "null")] ∧
    ([("a", JVal.str "null")] : List (String × JVal)) ≠ [("a", JVal.jnull)] ∧
    specNormalizeJson [("b", JVal.str " 7")] = [("b", JVal.jint 7)] ∧
    chat_with_contract_model "c.pdf"
        (.ok ⟨"", ParseOutcome.obj [("b", JVal.str " 7")]⟩)
      = ChatResponse.results ⟨"c.pdf", [("b", JVal.str " 7")]⟩ ∧
    ([("b", JVal.str " 7")] : List (String × JVal)) ≠ [("b", JVal.jint 7)] := by
  refine ⟨rfl, rfl, ?_, rfl, rfl, ?_⟩
  · intro h
    injection h with h1 _
    injection h1 with _ h2
    exact JVal.noConfusion h2
  · intro h
    injection h with h1 _
    injection h1 with _ h2
    exact JVal.noConfusion h2

/-- C2 amended: for raw text that is a valid JSON object, `/extract`
returns the object with double quotes stripped from keys and from string
values and every other value (numbers, nulls, lists, objects) kept
unchanged — no null or integer coercion — stated for objects whose
quote-stripped keys stay distinct, since colliding stripped keys merge;
and `/chat` — when every value is a string — returns the object with each
value null/integer-coerced but keys, quotes and surrounding whitespace
untouched, stated for the distinct keys every parsed JSON object has. -/
theorem c2_json_paths_characterization (raw : String)
    (fields : List (String × JVal)) :
    ((fields.map fun kv => stripQuotes kv.1).Nodup →
      extractNormalize ⟨raw, ParseOutcome.obj fields⟩
        = .ok (fields.map fun kv => (stripQuotes kv.1, quoteStripVal kv.2))) ∧
    ((fields.map Prod.fst).Nodup → (∀ kv ∈ fields, kv.2.isStr = true) →
      chatJsonDetails fields
        = .ok (fields.map fun kv => (kv.1, chatCoerceVal kv.2))) := by
  constructor
  · intro hq
    show Except.ok (remove_extra_quotes fields) = _
    rw [remove_extra_quotes_eq_fold fields,
      quoteStrip_foldl fields [] hq (by simp), List.nil_append]
  · intro hnd hstr
    show chatJsonAux [] fields = _
    rw [chatJsonAux_all_strings fields [] hstr hnd (by simp),
      List.nil_append]

/-- Witness for C2 (amended): the `/extract` half on an object carrying a
non-string value, the `/chat` half on an all-string object. -/
theorem c2_witness :
    extractNormalize
        ⟨"", ParseOutcome.obj [("a", JVal.str "x"), ("n", JVal.jint 3)]⟩
      = .ok [("a", JVal.str "x"), ("n", JVal.jint 3)] ∧
    chatJsonDetails [("a", JVal.str "x")] = .ok [("a", JVal.str "x")] :=
  ⟨((c2_json_paths_characterization ""
      [("a", JVal.str "x"), ("n", JVal.jint 3)]).1 (by decide)).trans rfl,
   ((c2_json_paths_characterization "" [("a", JVal.str "x")]).2 (by decide)
      (fun kv hm => by rw [List.mem_singleton] at hm; subst hm; rfl)).trans
      rfl⟩

/-- C9 counterexample: an already-coerced mapping can carry a key
containing a colon (here produced by the `/chat` JSON-path coercion
itself), and the round trip through `key: value` lines then moves part of
the key into the value, so re-running the heuristic parse does not yield
the same mapping. -/
theorem c9_counterexample :
    chatJsonDetails [("a:b", JVal.str "x")] = .ok [("a:b", JVal.str "x")] ∧
    chatHeuristicDetails (renderLines [("a:b", JVal.str "x")])
      = [("a", JVal.str "b: x")] ∧
    ([("a", JVal.str "b: x")] : List (String × JVal))
      ≠ [("a:b", JVal.str "x")] := by
  refine ⟨rfl, rfl, ?_⟩
  intro h
  injection h with h1 _
  injection h1 with h2 _
  exact absurd h2 (by decide)

/-- C9 amended: for every already-coerced mapping whose keys are
colon-free, whitespace-stripped, free of line boundaries and distinct,
and whose values are null, nonnegative integers, or stripped strings that
are neither the literal `null` nor all digits and contain no line
boundary — exactly the mappings the `/chat` heuristic path produces —
rendering to `key: value` lines and re-running the heuristic parse plus
coercion yields the same mapping. -/
theorem c9_heuristic_roundtrip (m : List (String × JVal))
    (h : IsCoercedMapping m) :
    chatHeuristicDetails (renderLines m) = m := by
  obtain ⟨hnd, hwf⟩ := h
  have hlines : ∀ l ∈ m.map renderLine,
      l.data ≠ [] ∧ ∀ c ∈ l.data, isLineBoundary c = false := by
    intro l hl
    rw [List.mem_map] at hl
    obtain ⟨kv, hkv, hrl⟩ := hl
    obtain ⟨k, v⟩ := kv
    subst hrl
    exact renderLine_wf k v (hwf (k, v) hkv).1 (hwf (k, v) hkv).2
  unfold chatHeuristicDetails renderLines
  rw [pySplitlines_joinLines (m.map renderLine) hlines]
  exact foldl_chatHeurStep_render m [] ⟨hnd, hwf⟩ (by simp)

/-- Witness for C9 (amended) on a three-field coerced mapping with an
integer, a null, and a string value containing a colon. -/
theorem c9_witness :
    IsCoercedMapping
      [("a", JVal.jint 7), ("b", JVal.jnull), ("c", JVal.str "x:y")] ∧
    chatHeuristicDetails (renderLines
        [("a", JVal.jint 7), ("b", JVal.jnull), ("c", JVal.str "x:y")])
      = [("a", JVal.jint 7), ("b", JVal.jnull), ("c", JVal.str "x:y")] :=
  ⟨by decide, c9_heuristic_roundtrip _ (by decide)⟩
